import Mathlib

/-!
Verification of the task-extraction core of the email-task repository.

The embedding models, from `src/task_extract.py`:
  - the `TaskType` enum and the pydantic `Task` / `Tasks` models,
    including how pydantic validates a raw decoded JSON object
    (`Task(**task)` / `Tasks(**structured_response)`);
  - the response-decoding path of `generate` (lines 118-135): parse the
    response text as JSON, accept a bare array or an object with a
    `tasks` key, return an empty list on any other shape or on a parse
    failure; a pydantic `ValidationError` escapes the inner `try` (which
    only catches `json.JSONDecodeError`) and is caught by the outer
    `except Exception`, which returns an empty list;
  - the retry loop of `generate` (lines 101-155): up to 5 attempts,
    retrying only on a `ClientError` with status 429, sleeping
    `2 * 2 ** attempt + random.uniform(0, 1)` seconds between attempts.

From `src/email_task_integration.py` it models `save_tasks_to_json`
(lines 121-142), and from `src/batch_processor.py` the batch saving
logic of `process_emails_in_batches` (lines 41-87).

The generation service is external: each attempt's outcome (success
with a given parse result of the response text, a `ClientError` with a
status code, or some other exception) is an oracle parameter, as is the
jitter drawn by `random.uniform(0, 1)`.
-/

namespace TaskExtract

/-- Decoded JSON values, the possible results of `json.loads`. -/
inductive Json where
  | null : Json
  | bool (b : Bool) : Json
  | num (n : Int) : Json
  | str (s : String) : Json
  | arr (elems : List Json) : Json
  | obj (fields : List (String × Json)) : Json

/-- Task type tags, from the `TaskType(str, Enum)` in `task_extract.py`. -/
inductive TaskType where
  | meeting_scheduling
  | reminder
  | to_do_item
deriving DecidableEq

/-- The pydantic `Task` model of `task_extract.py`: `description` and
`task_type` are required, the other three fields default to `None`. -/
structure Task where
  description : String
  deadline : Option String
  task_type : TaskType
  dependencies : Option (List String)
  responsible : Option String
deriving DecidableEq

/-- Key lookup in a decoded JSON object, as Python dict access.
`json.loads` produces dicts without duplicate keys, so taking the first
occurrence is faithful. -/
def getField (fields : List (String × Json)) (key : String) : Option Json :=
  match fields with
  | [] => none
  | (k, v) :: rest => if k = key then some v else getField rest key

/-- String value of the `TaskType` enum member, as in the Python source. -/
def taskTypeStr : TaskType → String
  | .meeting_scheduling => "meeting_scheduling"
  | .reminder => "reminder"
  | .to_do_item => "to_do_item"

/-- Pydantic coercion of a string to the `TaskType` enum: only the three
exact member values are accepted. -/
def taskTypeOfString (s : String) : Option TaskType :=
  if s = "meeting_scheduling" then some .meeting_scheduling
  else if s = "reminder" then some .reminder
  else if s = "to_do_item" then some .to_do_item
  else none

/-- Pydantic validation of the required `task_type: TaskType` field:
the value must be one of the three enum strings. -/
def taskTypeOfJson : Option Json → Option TaskType
  | some (Json.str s) => taskTypeOfString s
  | _ => none

/-- Pydantic validation of an `Optional[str]` field: absent or `null`
gives `None`; a string is kept; any other value fails validation. -/
def asOptStr : Option Json → Option (Option String)
  | none => some none
  | some Json.null => some none
  | some (Json.str s) => some (some s)
  | some _ => none

/-- Element-wise validation of a JSON array against `List[str]`. -/
def strListOfJson : List Json → Option (List String)
  | [] => some []
  | Json.str s :: rest =>
    match strListOfJson rest with
    | some l => some (s :: l)
    | none => none
  | _ :: _ => none

/-- Pydantic validation of an `Optional[List[str]]` field: absent or
`null` gives `None`; a list of strings is kept; anything else fails. -/
def asOptStrList : Option Json → Option (Option (List String))
  | none => some none
  | some Json.null => some none
  | some (Json.arr elems) =>
    match strListOfJson elems with
    | some l => some (some l)
    | none => none
  | some _ => none

/-- Pydantic validation of the required `description: str` field: the
value must be present and a string; pydantic `str` accepts any string,
the empty string included. -/
def asDesc : Option Json → Option String
  | some (Json.str s) => some s
  | _ => none

/-- Validation of the fields of one raw task object, as pydantic
`Task(**task)` performs it: `description` must be present and a string,
`task_type` must be one of the three enum values, and the optional
fields must be absent, `null`, or of the right shape. Extra keys are
ignored, as pydantic does by default. -/
def validateFields (fields : List (String × Json)) : Option Task :=
  (asDesc (getField fields "description")).bind fun desc =>
  (taskTypeOfJson (getField fields "task_type")).bind fun tt =>
  (asOptStr (getField fields "deadline")).bind fun dl =>
  (asOptStrList (getField fields "dependencies")).bind fun dep =>
  (asOptStr (getField fields "responsible")).bind fun rsp =>
  some { description := desc, deadline := dl, task_type := tt,
         dependencies := dep, responsible := rsp }

/-- Validation of one candidate raw task object: `Task(**task)` requires
a mapping (any other value raises, with the same empty-list effect as a
`ValidationError`), then validates the fields. -/
def validateTask : Json → Option Task
  | Json.obj fields => validateFields fields
  | _ => none

/-- Validation of a whole candidate list. `none` models the
`ValidationError` (or `TypeError`) raised by the first invalid element
of `[Task(**task) for task in structured_response]`, or by
`Tasks(**structured_response)`; it aborts the whole list. -/
def validateAll : List Json → Option (List Task)
  | [] => some []
  | j :: rest =>
    match validateTask j, validateAll rest with
    | some t, some ts => some (t :: ts)
    | _, _ => none

/-- The decoding path of `generate` (task_extract.py lines 118-135) for
one successful service response. The input is the result of
`json.loads` on the response text, `none` when that raises
`json.JSONDecodeError`. A raised `ValidationError` is caught by the
outer `except Exception` handler, which returns the empty list. -/
def processResponse (parsed : Option Json) : List Task :=
  match parsed with
  | none => []
  | some (Json.arr elems) => (validateAll elems).getD []
  | some (Json.obj fields) =>
    match getField fields "tasks" with
    | some (Json.arr elems) => (validateAll elems).getD []
    | some _ => []
    | none => []
  | some _ => []

/-- Outcome of one `client.models.generate_content` attempt: a response
whose text parses to the given JSON value (`none` when `json.loads`
raises), a `ClientError` carrying a status code, or any other
exception raised during the attempt. -/
inductive Outcome where
  | success (parsed : Option Json) : Outcome
  | clientError (status : Nat) : Outcome
  | failure : Outcome

/-- Observable result of one `generate` call: the returned task list,
how many attempts were made, and the backoff delays slept between
consecutive attempts, in order. -/
structure GenResult where
  tasks : List Task
  attempts : Nat
  delays : List ℚ
deriving DecidableEq

/-- The `max_retries = 5` constant of `generate`. -/
def maxRetries : Nat := 5

/-- The `base_delay = 2` seconds constant of `generate`. -/
def baseDelay : ℚ := 2

/-- The backoff delay slept after a rate-limited attempt:
`base_delay * (2 ** attempt) + random.uniform(0, 1)`. The jitter oracle
gives the value drawn by `random.uniform(0, 1)` at each attempt. -/
def backoff (jitter : Nat → ℚ) (attempt : Nat) : ℚ :=
  baseDelay * 2 ^ attempt + jitter attempt

/-- The retry loop `for attempt in range(max_retries)` of `generate`
(task_extract.py lines 105-153), from a given attempt index with the
remaining number of loop iterations as fuel. A successful response is
decoded and returned; a `ClientError` with status 429 sleeps and
retries while `attempt < max_retries - 1` and otherwise returns the
empty list; any other `ClientError` or exception returns the empty
list at once. The fuel-exhausted case is the unreachable
`return []` after the loop. -/
def generateAux (outcomes : Nat → Outcome) (jitter : Nat → ℚ) :
    Nat → Nat → GenResult
  | _, 0 => ⟨[], 0, []⟩
  | attempt, fuel + 1 =>
    match outcomes attempt with
    | .success parsed => ⟨processResponse parsed, 1, []⟩
    | .clientError status =>
      if status = 429 then
        if attempt < maxRetries - 1 then
          let d := backoff jitter attempt
          let r := generateAux outcomes jitter (attempt + 1) fuel
          ⟨r.tasks, r.attempts + 1, d :: r.delays⟩
        else ⟨[], 1, []⟩
      else ⟨[], 1, []⟩
    | .failure => ⟨[], 1, []⟩

/-- The `generate` function of task_extract.py, at the granularity the
claims need: the prompt construction does not affect the decoded
result, so the call is determined by the per-attempt outcomes of the
generation service and the jitter draws. -/
def generate (outcomes : Nat → Outcome) (jitter : Nat → ℚ) : GenResult :=
  generateAux outcomes jitter 0 maxRetries

/-- JSON serialization of an `Optional[str]` field value, as
`json.dump` writes the output of `task.dict()`. -/
def jsonOfOptStr : Option String → Json
  | none => Json.null
  | some s => Json.str s

/-- JSON serialization of an `Optional[List[str]]` field value. -/
def jsonOfOptStrList : Option (List String) → Json
  | none => Json.null
  | some l => Json.arr (l.map Json.str)

/-- The dict `task.dict()` produces for one task, with pydantic's field
declaration order and nullable fields emitted as `null`. -/
def taskToDict (t : Task) : Json :=
  Json.obj [("description", Json.str t.description),
            ("deadline", jsonOfOptStr t.deadline),
            ("task_type", Json.str (taskTypeStr t.task_type)),
            ("dependencies", jsonOfOptStrList t.dependencies),
            ("responsible", jsonOfOptStr t.responsible)]

/-- The `save_tasks_to_json` function of email_task_integration.py
(lines 121-142). The file argument is the pre-state of the target file:
`none` when it does not exist, `some none` when it exists but
`json.load` raises `json.JSONDecodeError`, `some (some j)` when it
parses to `j`. The result is the JSON value the file holds afterwards,
or `none` when the call raises before writing (existing contents that
parse to a non-list make `existing_tasks + tasks_dict` raise
`TypeError`). -/
def save_tasks_to_json (tasks : List Task) (file : Option (Option Json)) :
    Option Json :=
  let tasks_dict := tasks.map taskToDict
  match file with
  | none => some (Json.arr tasks_dict)
  | some none => some (Json.arr tasks_dict)
  | some (some (Json.arr existing)) => some (Json.arr (existing ++ tasks_dict))
  | some (some _) => none

/-- One batch iteration of `process_emails_in_batches`
(batch_processor.py lines 50-81), abstracted over the extraction
results: the state is the accumulated `all_tasks` list together with
the contents of the files written so far; `batch` holds the task list
extracted from each email of the batch. The batch file is written, and
`all_tasks` extended, only when `batch_tasks` is non-empty. -/
def batchStep (st : List Task × List (List Task))
    (batch : List (List Task)) : List Task × List (List Task) :=
  let batch_tasks := batch.flatten
  if batch_tasks.isEmpty then st
  else (st.1 ++ batch_tasks, st.2 ++ [batch_tasks])

/-- Slicing `emails[i:i+batch_size]` for `i in range(0, len(emails),
batch_size)`, as in batch_processor.py line 45. -/
def chunkList (n : Nat) : List α → List (List α)
  | [] => []
  | x :: rest => (x :: rest.take (n - 1)) :: chunkList n (rest.drop (n - 1))
termination_by l => l.length
decreasing_by
  simp only [List.length_drop, List.length_cons]
  omega

/-- The batch loop of `process_emails_in_batches`, abstracted over the
extraction results: input is the task list extracted from each email,
output is the final `all_tasks` list and the contents of each batch
output file written, in order. -/
def process_emails_in_batches (taskLists : List (List Task))
    (batchSize : Nat) : List Task × List (List Task) :=
  (chunkList batchSize taskLists).foldl batchStep ([], [])

/-- The `isinstance(structured_response, list)` test of the decoding
path. -/
def isArr : Json → Bool
  | Json.arr _ => true
  | _ => false

/-- The `isinstance(structured_response, dict) and "tasks" in
structured_response` test of the decoding path. -/
def hasTasksKey : Json → Bool
  | Json.obj fields => (getField fields "tasks").isSome
  | _ => false

/-- Attempt outcomes that are service errors other than a rate-limit
signal: a `ClientError` whose status code is not 429, or any other
exception raised by the attempt. -/
def NonRateLimitError : Outcome → Prop
  | .success _ => False
  | .clientError status => status ≠ 429
  | .failure => True

/-- The raw JSON field values an `Optional[str]` task field can have
come from: the validated value `some s` comes only from the string `s`
itself, and `none` only from an absent field or an explicit `null`. -/
def OptStrMatches (o : Option Json) (v : Option String) : Prop :=
  match v with
  | some s => o = some (Json.str s)
  | none => o = none ∨ o = some Json.null

/-- The raw JSON field values an `Optional[List[str]]` task field can
have come from. -/
def OptStrListMatches (o : Option Json) (v : Option (List String)) : Prop :=
  match v with
  | some l => o = some (Json.arr (l.map Json.str))
  | none => o = none ∨ o = some Json.null

/-- A constructed task carries every field value unchanged from the raw
object it was validated from. -/
def FieldsPreserved (fields : List (String × Json)) (t : Task) : Prop :=
  getField fields "description" = some (Json.str t.description) ∧
  getField fields "task_type" = some (Json.str (taskTypeStr t.task_type)) ∧
  OptStrMatches (getField fields "deadline") t.deadline ∧
  OptStrListMatches (getField fields "dependencies") t.dependencies ∧
  OptStrMatches (getField fields "responsible") t.responsible

lemma asDesc_inv {o : Option Json} {s : String} (h : asDesc o = some s) :
    o = some (Json.str s) := by
  match o with
  | none => simp [asDesc] at h
  | some Json.null => simp [asDesc] at h
  | some (Json.bool b) => simp [asDesc] at h
  | some (Json.num n) => simp [asDesc] at h
  | some (Json.str s0) => simp [asDesc] at h; subst h; rfl
  | some (Json.arr l) => simp [asDesc] at h
  | some (Json.obj f) => simp [asDesc] at h

lemma taskTypeOfString_inv {s : String} {tt : TaskType}
    (h : taskTypeOfString s = some tt) : s = taskTypeStr tt := by
  unfold taskTypeOfString at h
  split_ifs at h with h1 h2 h3
  · injection h with h0; subst h0; simpa [taskTypeStr]
  · injection h with h0; subst h0; simpa [taskTypeStr]
  · injection h with h0; subst h0; simpa [taskTypeStr]

lemma taskTypeOfJson_inv {o : Option Json} {tt : TaskType}
    (h : taskTypeOfJson o = some tt) :
    o = some (Json.str (taskTypeStr tt)) := by
  match o with
  | none => simp [taskTypeOfJson] at h
  | some Json.null => simp [taskTypeOfJson] at h
  | some (Json.bool b) => simp [taskTypeOfJson] at h
  | some (Json.num n) => simp [taskTypeOfJson] at h
  | some (Json.str s0) =>
    have := taskTypeOfString_inv (h : taskTypeOfString s0 = some tt)
    subst this; rfl
  | some (Json.arr l) => simp [taskTypeOfJson] at h
  | some (Json.obj f) => simp [taskTypeOfJson] at h

lemma asOptStr_inv {o : Option Json} {v : Option String}
    (h : asOptStr o = some v) : OptStrMatches o v := by
  match o with
  | none =>
    simp [asOptStr] at h; subst h; exact Or.inl rfl
  | some Json.null =>
    simp [asOptStr] at h; subst h; exact Or.inr rfl
  | some (Json.str s0) =>
    simp [asOptStr] at h; subst h; rfl
  | some (Json.bool b) => simp [asOptStr] at h
  | some (Json.num n) => simp [asOptStr] at h
  | some (Json.arr l) => simp [asOptStr] at h
  | some (Json.obj f) => simp [asOptStr] at h

lemma strListOfJson_inv {l : List Json} {v : List String}
    (h : strListOfJson l = some v) : l = v.map Json.str := by
  induction l generalizing v with
  | nil => simp [strListOfJson] at h; subst h; rfl
  | cons j rest ih =>
    match j with
    | Json.null => simp [strListOfJson] at h
    | Json.bool b => simp [strListOfJson] at h
    | Json.num n => simp [strListOfJson] at h
    | Json.arr l0 => simp [strListOfJson] at h
    | Json.obj f => simp [strListOfJson] at h
    | Json.str s0 =>
      unfold strListOfJson at h
      cases hr : strListOfJson rest with
      | none => rw [hr] at h; cases h
      | some l0 =>
        rw [hr] at h
        injection h with h0
        subst h0
        simp [ih hr]

lemma asOptStrList_inv {o : Option Json} {v : Option (List String)}
    (h : asOptStrList o = some v) : OptStrListMatches o v := by
  match o with
  | none =>
    simp [asOptStrList] at h; subst h; exact Or.inl rfl
  | some Json.null =>
    simp [asOptStrList] at h; subst h; exact Or.inr rfl
  | some (Json.str s0) => simp [asOptStrList] at h
  | some (Json.bool b) => simp [asOptStrList] at h
  | some (Json.num n) => simp [asOptStrList] at h
  | some (Json.obj f) => simp [asOptStrList] at h
  | some (Json.arr l0) =>
    simp only [asOptStrList] at h
    cases hr : strListOfJson l0 with
    | none => rw [hr] at h; cases h
    | some ls =>
      rw [hr] at h
      injection h with h0
      subst h0
      show some (Json.arr l0) = some (Json.arr (ls.map Json.str))
      rw [strListOfJson_inv hr]

lemma validateFields_inv {fields : List (String × Json)} {t : Task}
    (h : validateFields fields = some t) : FieldsPreserved fields t := by
  unfold validateFields at h
  simp only [Option.bind_eq_some] at h
  obtain ⟨desc, hdesc, tt, htt, dl, hdl, dep, hdep, rsp, hrsp, heq⟩ := h
  injection heq with heq
  subst heq
  exact ⟨asDesc_inv hdesc, taskTypeOfJson_inv htt, asOptStr_inv hdl,
         asOptStrList_inv hdep, asOptStr_inv hrsp⟩

lemma validateTask_inv {j : Json} {t : Task}
    (h : validateTask j = some t) :
    ∃ fields, j = Json.obj fields ∧ FieldsPreserved fields t := by
  match j with
  | Json.null => simp [validateTask] at h
  | Json.bool b => simp [validateTask] at h
  | Json.num n => simp [validateTask] at h
  | Json.str s => simp [validateTask] at h
  | Json.arr l => simp [validateTask] at h
  | Json.obj fields => exact ⟨fields, rfl, validateFields_inv h⟩

lemma validateAll_length {l : List Json} {ts : List Task}
    (h : validateAll l = some ts) : ts.length = l.length := by
  induction l generalizing ts with
  | nil => simp [validateAll] at h; subst h; rfl
  | cons j rest ih =>
    unfold validateAll at h
    cases hv : validateTask j with
    | none => rw [hv] at h; cases h
    | some t =>
      rw [hv] at h
      cases hr : validateAll rest with
      | none => rw [hr] at h; cases h
      | some ts0 =>
        rw [hr] at h
        injection h with h0
        subst h0
        simp [ih hr]

lemma validateAll_get {l : List Json} {ts : List Task}
    (h : validateAll l = some ts) :
    ∀ i (h1 : i < l.length) (h2 : i < ts.length),
      validateTask (l.get ⟨i, h1⟩) = some (ts.get ⟨i, h2⟩) := by
  induction l generalizing ts with
  | nil => intro i h1 _; cases h1
  | cons j rest ih =>
    unfold validateAll at h
    cases hv : validateTask j with
    | none => rw [hv] at h; cases h
    | some t =>
      rw [hv] at h
      cases hr : validateAll rest with
      | none => rw [hr] at h; cases h
      | some ts0 =>
        rw [hr] at h
        injection h with h0
        subst h0
        intro i h1 h2
        match i with
        | 0 => exact hv
        | i + 1 =>
          exact ih hr i (Nat.lt_of_succ_lt_succ h1) (Nat.lt_of_succ_lt_succ h2)

lemma validateAll_eq_none_of_mem {l : List Json} {j : Json}
    (hj : j ∈ l) (hv : validateTask j = none) : validateAll l = none := by
  induction l with
  | nil => cases hj
  | cons x rest ih =>
    rcases List.mem_cons.mp hj with h0 | h0
    · subst h0
      unfold validateAll
      rw [hv]
    · unfold validateAll
      rw [ih h0]
      cases validateTask x <;> rfl

lemma generate_success {outcomes : Nat → Outcome} {parsed : Option Json}
    (jitter : Nat → ℚ) (h : outcomes 0 = Outcome.success parsed) :
    generate outcomes jitter = ⟨processResponse parsed, 1, []⟩ := by
  show generateAux outcomes jitter 0 (4 + 1) = _
  unfold generateAux
  rw [h]

/-- Claim C3: a service response decoding to a JSON array whose raw
task objects are all valid yields exactly one Task Record per object,
in array order, each preserving every field value of its raw object. -/
theorem valid_array_roundtrip (outcomes : Nat → Outcome) (jitter : Nat → ℚ)
    (elems : List Json) (ts : List Task)
    (hout : outcomes 0 = Outcome.success (some (Json.arr elems)))
    (hval : validateAll elems = some ts) :
    (generate outcomes jitter).tasks = ts ∧
    ts.length = elems.length ∧
    ∀ i (h1 : i < elems.length) (h2 : i < ts.length),
      ∃ fields, elems.get ⟨i, h1⟩ = Json.obj fields ∧
        FieldsPreserved fields (ts.get ⟨i, h2⟩) := by
  refine ⟨?_, validateAll_length hval, ?_⟩
  · rw [generate_success jitter hout]
    show processResponse (some (Json.arr elems)) = ts
    simp [processResponse, hval]
  · intro i h1 h2
    exact validateTask_inv (validateAll_get hval i h1 h2)

theorem valid_array_roundtrip_witness :
    (generate (fun _ => Outcome.success (some (Json.arr [Json.obj
        [("description", Json.str "Send the report"),
         ("deadline", Json.str "Friday"),
         ("task_type", Json.str "to_do_item"),
         ("responsible", Json.null),
         ("dependencies", Json.null)]]))) (fun _ => 0)).tasks =
      [{ description := "Send the report", deadline := some "Friday",
         task_type := .to_do_item, dependencies := none,
         responsible := none }] :=
  (valid_array_roundtrip _ _
    [Json.obj
      [("description", Json.str "Send the report"),
       ("deadline", Json.str "Friday"),
       ("task_type", Json.str "to_do_item"),
       ("responsible", Json.null),
       ("dependencies", Json.null)]]
    [{ description := "Send the report", deadline := some "Friday",
       task_type := .to_do_item, dependencies := none,
       responsible := none }] rfl rfl).1

/-- Claim C4: the Extraction Protocol treats a response decoding to the
bare array `S` and one decoding to the object with `S` under a `tasks`
key identically, for every candidate sequence `S`. -/
theorem tasks_key_equivalence (outcomes1 outcomes2 : Nat → Outcome)
    (jitter : Nat → ℚ) (S : List Json)
    (h1 : outcomes1 0 = Outcome.success (some (Json.arr S)))
    (h2 : outcomes2 0 = Outcome.success
      (some (Json.obj [("tasks", Json.arr S)]))) :
    generate outcomes1 jitter = generate outcomes2 jitter := by
  rw [generate_success jitter h1, generate_success jitter h2]
  have hpr : processResponse (some (Json.arr S)) =
      processResponse (some (Json.obj [("tasks", Json.arr S)])) := by
    simp [processResponse, getField]
  rw [hpr]

theorem tasks_key_equivalence_witness :
    generate (fun _ => Outcome.success (some (Json.arr
        [Json.obj [("description", Json.str "Send the report"),
                   ("task_type", Json.str "to_do_item")]]))) (fun _ => 0) =
    generate (fun _ => Outcome.success (some (Json.obj [("tasks", Json.arr
        [Json.obj [("description", Json.str "Send the report"),
                   ("task_type", Json.str "to_do_item")]])]))) (fun _ => 0) :=
  tasks_key_equivalence _ _ _ _ rfl rfl

/-- Claim C5: a response whose text is not parseable as JSON, or whose
top-level value is neither a sequence nor a mapping with a `tasks` key,
makes the call return the empty sequence after that one attempt,
without raising. -/
theorem malformed_response_empty (outcomes : Nat → Outcome)
    (jitter : Nat → ℚ) (parsed : Option Json)
    (hout : outcomes 0 = Outcome.success parsed)
    (hshape : parsed = none ∨
      ∃ j, parsed = some j ∧ isArr j = false ∧ hasTasksKey j = false) :
    generate outcomes jitter = ⟨[], 1, []⟩ := by
  rw [generate_success jitter hout]
  rcases hshape with h | ⟨j, hj, harr, htk⟩
  · subst h; rfl
  · subst hj
    match j with
    | Json.null => rfl
    | Json.bool b => rfl
    | Json.num n => rfl
    | Json.str s => rfl
    | Json.arr l => simp [isArr] at harr
    | Json.obj fields =>
      have hnone : getField fields "tasks" = none := by
        simpa [hasTasksKey, Option.isSome_iff_ne_none] using htk
      simp [processResponse, hnone]

theorem malformed_response_empty_witness :
    generate (fun _ => Outcome.success none) (fun _ => 0) = ⟨[], 1, []⟩ :=
  malformed_response_empty _ _ _ rfl (Or.inl rfl)

/-- Claim C1, as stated, is false: the decoded sequence below holds one
valid raw task object (it validates to a Task Record on its own) and
one whose `task_type` is outside the closed set, yet the call returns
the empty sequence — the `ValidationError` raised inside the list
comprehension escapes the inner `try` and the `except Exception`
handler discards the whole batch, so the valid object's record is not
returned. -/
theorem invalid_object_not_dropped_cex :
    validateTask (Json.obj [("description", Json.str "Send the report"),
        ("task_type", Json.str "to_do_item")]) =
      some { description := "Send the report", deadline := none,
             task_type := .to_do_item, dependencies := none,
             responsible := none } ∧
    (generate (fun _ => Outcome.success (some (Json.arr
        [Json.obj [("description", Json.str "Send the report"),
                   ("task_type", Json.str "to_do_item")],
         Json.obj [("description", Json.str "Review the notes"),
                   ("task_type", Json.str "urgent")]])))
      (fun _ => 0)).tasks = [] :=
  ⟨rfl, rfl⟩

/-- Claim C1 as amended: when the decoded candidate sequence contains
any invalid raw task object, the Extraction Protocol returns the empty
sequence — the invalid object never appears in the output, but the
valid objects of the same sequence are discarded with it rather than
being returned. -/
theorem invalid_object_empties_batch (outcomes : Nat → Outcome)
    (jitter : Nat → ℚ) (elems : List Json) (j : Json)
    (hout : outcomes 0 = Outcome.success (some (Json.arr elems)))
    (hmem : j ∈ elems) (hbad : validateTask j = none) :
    (generate outcomes jitter).tasks = [] := by
  rw [generate_success jitter hout]
  show processResponse (some (Json.arr elems)) = []
  simp [processResponse, validateAll_eq_none_of_mem hmem hbad]

theorem invalid_object_empties_batch_witness :
    (generate (fun _ => Outcome.success (some (Json.arr
        [Json.obj [("description", Json.str "Review the notes"),
                   ("task_type", Json.str "urgent")]])))
      (fun _ => 0)).tasks = [] :=
  invalid_object_empties_batch _ _ _
    (Json.obj [("description", Json.str "Review the notes"),
               ("task_type", Json.str "urgent")])
    rfl (List.mem_singleton.mpr rfl) rfl

/-- Claim C2: when every attempt is rejected with a rate-limit signal
(a `ClientError` with status 429), the call makes exactly 5 attempts,
sleeps `2 * 2 ^ attempt + uniform(0, 1)` seconds between consecutive
attempts — delays that are strictly increasing for all jitter draws in
`[0, 1)` — and then returns the empty sequence without raising. -/
theorem rate_limit_five_attempts (outcomes : Nat → Outcome)
    (jitter : Nat → ℚ)
    (hout : ∀ i, outcomes i = Outcome.clientError 429)
    (hj0 : ∀ i, 0 ≤ jitter i) (hj1 : ∀ i, jitter i < 1) :
    generate outcomes jitter =
      ⟨[], 5, [2 * 2 ^ 0 + jitter 0, 2 * 2 ^ 1 + jitter 1,
               2 * 2 ^ 2 + jitter 2, 2 * 2 ^ 3 + jitter 3]⟩ ∧
    List.Chain' (fun a b => a < b) (generate outcomes jitter).delays := by
  have hgen : generate outcomes jitter =
      ⟨[], 5, [2 * 2 ^ 0 + jitter 0, 2 * 2 ^ 1 + jitter 1,
               2 * 2 ^ 2 + jitter 2, 2 * 2 ^ 3 + jitter 3]⟩ := by
    simp [generate, generateAux, hout, maxRetries, backoff, baseDelay]
  refine ⟨hgen, ?_⟩
  rw [hgen]
  simp only [List.chain'_cons, List.chain'_singleton, and_true]
  refine ⟨?_, ?_, ?_⟩ <;> nlinarith [hj0 0, hj0 1, hj0 2, hj0 3,
    hj1 0, hj1 1, hj1 2, hj1 3]

theorem rate_limit_five_attempts_witness :
    generate (fun _ => Outcome.clientError 429) (fun _ => (1 : ℚ) / 2) =
      ⟨[], 5, [2 * 2 ^ 0 + 1 / 2, 2 * 2 ^ 1 + 1 / 2,
               2 * 2 ^ 2 + 1 / 2, 2 * 2 ^ 3 + 1 / 2]⟩ :=
  (rate_limit_five_attempts (fun _ => Outcome.clientError 429)
    (fun _ => (1 : ℚ) / 2) (fun _ => rfl)
    (fun _ => by norm_num) (fun _ => by norm_num)).1

/-- Claim C6, as stated, is false on the empty-description half: the
pydantic field `description: str` accepts the empty string, so a raw
task object with an empty `description` is validated and the record is
constructed with an empty description. -/
theorem empty_description_accepted_cex :
    validateTask (Json.obj [("description", Json.str ""),
        ("task_type", Json.str "reminder")]) =
      some { description := "", deadline := none,
             task_type := .reminder, dependencies := none,
             responsible := none } :=
  rfl

/-- Claim C6 as amended: validation fails for every raw task object
whose `description` key is missing; the empty string, however, is
accepted as a description, so a constructed Task Record's description
may be empty. -/
theorem missing_description_rejected (fields : List (String × Json))
    (h : getField fields "description" = none) :
    validateTask (Json.obj fields) = none := by
  show validateFields fields = none
  unfold validateFields
  rw [h]
  rfl

theorem missing_description_rejected_witness :
    validateTask (Json.obj [("task_type", Json.str "reminder")]) = none :=
  missing_description_rejected _ rfl

/-- Claim C7: saving a batch to a file that already holds a JSON array
appends the new records after the existing ones — the file afterwards
holds exactly the existing array followed by the new batch, in order,
with nothing overwritten or lost. -/
theorem save_appends_to_existing_array (existing : List Json)
    (tasks : List Task) :
    save_tasks_to_json tasks (some (some (Json.arr existing))) =
      some (Json.arr (existing ++ tasks.map taskToDict)) :=
  rfl

/-- Claim C8: an attempt whose outcome is any service error other than
a rate-limit signal terminates the call at that attempt — no further
attempt is made, no delay is slept, and the empty sequence is returned
instead of raising, regardless of how many loop iterations remain. -/
theorem non_rate_limit_no_retry (outcomes : Nat → Outcome)
    (jitter : Nat → ℚ) (attempt fuel : Nat)
    (h : NonRateLimitError (outcomes attempt)) :
    generateAux outcomes jitter attempt (fuel + 1) = ⟨[], 1, []⟩ ∧
    (attempt = 0 → generate outcomes jitter = ⟨[], 1, []⟩) := by
  have key : ∀ f, generateAux outcomes jitter attempt (f + 1) = ⟨[], 1, []⟩ := by
    intro f
    cases ho : outcomes attempt with
    | success p => rw [ho] at h; cases h
    | failure => unfold generateAux; rw [ho]
    | clientError s =>
      rw [ho] at h
      have hs : s ≠ 429 := h
      unfold generateAux
      rw [ho]
      simp [hs]
  refine ⟨key fuel, fun h0 => ?_⟩
  subst h0
  exact key 4

theorem non_rate_limit_no_retry_witness :
    generateAux (fun _ => Outcome.clientError 500) (fun _ => 0) 0 (4 + 1) =
      ⟨[], 1, []⟩ ∧
    generate (fun _ => Outcome.clientError 500) (fun _ => 0) = ⟨[], 1, []⟩ := by
  have h := non_rate_limit_no_retry (fun _ => Outcome.clientError 500)
    (fun _ => 0) 0 4 (by simp [NonRateLimitError])
  exact ⟨h.1, h.2 rfl⟩

/-- Claim C9: when the target file exists but its contents are not
parseable as JSON, saving a batch succeeds and replaces the file's
contents with only the new records — the corrupt contents are silently
discarded. -/
theorem save_discards_unparseable (tasks : List Task) :
    save_tasks_to_json tasks (some none) =
      some (Json.arr (tasks.map taskToDict)) :=
  rfl

/-- Claim C10: a batch whose emails yield zero tasks writes no output
file and leaves the accumulated all-tasks list unchanged, and every
batch output file written holds at least one task. -/
theorem empty_batch_writes_nothing :
    (∀ (st : List Task × List (List Task)) (batch : List (List Task)),
      batch.flatten = [] → batchStep st batch = st) ∧
    (∀ (taskLists : List (List Task)) (batchSize : Nat),
      ∀ f ∈ (process_emails_in_batches taskLists batchSize).2,
        f ≠ ([] : List Task)) := by
  constructor
  · intro st batch h
    unfold batchStep
    simp [h]
  · have inv : ∀ (chunks : List (List (List Task)))
        (st : List Task × List (List Task)),
        (∀ f ∈ st.2, f ≠ ([] : List Task)) →
        ∀ f ∈ (chunks.foldl batchStep st).2, f ≠ ([] : List Task) := by
      intro chunks
      induction chunks with
      | nil => intro st hst f hf; exact hst f hf
      | cons c rest ih =>
        intro st hst f hf
        refine ih (batchStep st c) ?_ f hf
        intro g hg
        by_cases hc : c.flatten.isEmpty
        · unfold batchStep at hg
          rw [if_pos hc] at hg
          exact hst g hg
        · unfold batchStep at hg
          rw [if_neg hc] at hg
          rcases List.mem_append.mp hg with h0 | h0
          · exact hst g h0
          · rw [List.mem_singleton.mp h0]
            intro hcon
            rw [hcon] at hc
            exact hc rfl
    intro taskLists batchSize
    exact inv _ ([], []) (by simp)

theorem empty_batch_writes_nothing_witness :
    batchStep (([], []) : List Task × List (List Task))
        [([] : List Task)] = ([], []) ∧
    ([({ description := "Send the report", deadline := none,
         task_type := .to_do_item, dependencies := none,
         responsible := none } : Task)] : List Task) ≠ [] := by
  refine ⟨empty_batch_writes_nothing.1 _ _ rfl, ?_⟩
  refine empty_batch_writes_nothing.2
    [[{ description := "Send the report", deadline := none,
        task_type := .to_do_item, dependencies := none,
        responsible := none }]] 1 _ ?_
  have hrun : (process_emails_in_batches
      [[{ description := "Send the report", deadline := none,
          task_type := .to_do_item, dependencies := none,
          responsible := none }]] 1).2 =
      [[{ description := "Send the report", deadline := none,
          task_type := .to_do_item, dependencies := none,
          responsible := none }]] := by
    simp [process_emails_in_batches, chunkList, batchStep]
  rw [hrun]
  exact List.mem_singleton.mpr rfl

end TaskExtract
